import Mathlib

/-!
Shallow embedding of the `array_manipulation` Rust crate (src/src/lib.rs).

The crate manipulates fixed-size arrays `[T; N]` through raw-memory
operations.  We model an array value as a `List T` (its length plays the
role of the const generic `N`), and a `MaybeUninit<[T; K]>` buffer as a
`List (Option T)` of length `K`, where `none` stands for an uninitialized
slot.

  * `copy_nonoverlapping(src, dst.add(off), 1)` for a source of element
    type `[T; k]` writes `k` element slots starting at element offset
    `off`; it is modelled by `writeAt buf off src`.
  * `MaybeUninit::assume_init` is modelled by `assumeInit`, which returns
    `some` of the element list exactly when every slot was written.
  * `read(ptr.add(off).cast::<[T; c]>())` reads `c` elements starting at
    element offset `off`; it is modelled by `readBytes xs off c`.
    `transmute_copy::<[T; N], [T; c]>(&self)` reads the first `c`
    elements, i.e. `readBytes xs 0 c`.
  * `forget(x)` discards a value while running no finalizer: it
    contributes nothing to the drop log.
  * `drop_in_place(&mut self[a..b])` runs the finalizer of the elements
    at indices `a, a+1, ..., b-1`, in order.  Finalizer invocations are
    recorded as a drop log: the list of element indices (into the
    original array `self`) whose finalizer the operation ran, in
    invocation order.  Values are modelled at the byte level: finalizing
    a slot does not change the bytes stored there, so a later raw read
    still returns the same element value.

Every public operation of the crate is embedded as a function returning
the produced array (an `Option (List T)` when the source goes through
`assume_init`) paired with its drop log.
-/

namespace ArrayManipulation

/-- A `MaybeUninit<[T; n]>` buffer fresh from `MaybeUninit::uninit()`:
`n` uninitialized element slots. -/
def uninitBuf (T : Type) (n : Nat) : List (Option T) :=
  List.replicate n none

/-- Model of `copy_nonoverlapping(&raw const src, buf_ptr.add(off), 1)`
with `src : [T; src.length]`: overwrite the `src.length` slots of `buf`
starting at element offset `off` with the elements of `src`. -/
def writeAt {T : Type} (buf : List (Option T)) (off : Nat) (src : List T) : List (Option T) :=
  buf.take off ++ src.map some ++ buf.drop (off + src.length)

/-- Model of `MaybeUninit::assume_init`: defined (`some`) exactly when
every slot of the buffer has been initialized. -/
def assumeInit {T : Type} : List (Option T) → Option (List T)
  | [] => some []
  | none :: _ => none
  | some x :: rest => (assumeInit rest).map (fun ys => x :: ys)

/-- Model of `read(array_ptr.cast::<T>().add(off).cast::<[T; cnt]>())`:
read `cnt` elements starting at element offset `off` of a live array. -/
def readBytes {T : Type} (xs : List T) (off cnt : Nat) : List T :=
  (xs.drop off).take cnt

/-- Compile-time classification of a Rust element type, as seen by the
crate's specialization dispatcher.  `implementsDrop` records whether the
type has a direct `impl Drop` (the bound `T: Drop` used at lib.rs:246);
`needsDrop` records whether the type carries any finalization obligation
at all (`core::mem::needs_drop`, i.e. drop glue), which is also true for
types whose obligation arises only from their fields. -/
structure RustType where
  implementsDrop : Bool
  needsDrop : Bool
deriving DecidableEq, Repr

/-- The specialization dispatcher of the crate: the element-wise
(`drop_in_place`) `ArrayRemove` impl at lib.rs:246 is selected exactly
when the element type satisfies the bound `T: Drop`, i.e. has a direct
`impl Drop`; every other type takes the `default` bulk impl at
lib.rs:227. -/
def usesElementwisePath (t : RustType) : Bool :=
  t.implementsDrop

/-- The type `u8`: no drop obligation at all. -/
def u8Type : RustType := ⟨false, false⟩

/-- The type `Vec<u8>`: has a direct `impl Drop`. -/
def vecU8Type : RustType := ⟨true, true⟩

/-- A type such as `struct Wrapper(Vec<u8>);` with no `impl Drop` of its
own: it does not satisfy the bound `T: Drop`, yet it carries a
finalization obligation through its field (its drop glue frees the
`Vec`). -/
def vecU8WrapperType : RustType := ⟨false, true⟩

namespace ArrayAddDefault

/-- Embedding of `concat` from `impl<T, const N: usize> const ArrayAdd`
(lib.rs:116-132): allocate an uninitialized `[T; N + L]` buffer, copy
`self` to offset 0, copy `array` to offset `N`, forget both operands
(no finalizer runs: empty drop log), `assume_init`. -/
def concat {T : Type} (self array : List T) : Option (List T) × List Nat :=
  let result := uninitBuf T (self.length + array.length)
  let result := writeAt result 0 self
  let result := writeAt result self.length array
  (assumeInit result, [])

/-- Embedding of `concat_back` (lib.rs:134-150): copy `array` to offset
0, copy `self` to offset `L`, forget both operands, `assume_init`. -/
def concat_back {T : Type} (self array : List T) : Option (List T) × List Nat :=
  let result := uninitBuf T (self.length + array.length)
  let result := writeAt result 0 array
  let result := writeAt result array.length self
  (assumeInit result, [])

/-- Embedding of `append` (lib.rs:152-164): copy `self` to offset 0,
copy the single element `e` to offset `N`, forget both, `assume_init`. -/
def append {T : Type} (self : List T) (e : T) : Option (List T) × List Nat :=
  let result := uninitBuf T (self.length + 1)
  let result := writeAt result 0 self
  let result := writeAt result self.length [e]
  (assumeInit result, [])

/-- Embedding of `append_back` (lib.rs:166-182): copy `e` to offset 0,
copy `self` to offset 1, forget both, `assume_init`. -/
def append_back {T : Type} (self : List T) (e : T) : Option (List T) × List Nat :=
  let result := uninitBuf T (self.length + 1)
  let result := writeAt result 0 [e]
  let result := writeAt result 1 self
  (assumeInit result, [])

end ArrayAddDefault

namespace ArrayAddCopy

/-- Embedding of `concat` from `impl<T: Copy, const N: usize> const
ArrayAdd` (lib.rs:186-193): the place assignments `*ptr = self` /
`*ptr.add(N) = array` write the same slots as the default impl's
`copy_nonoverlapping` calls (for a `Copy` type the old place content
has no drop glue, so assignment is a plain overwrite). -/
def concat {T : Type} (self array : List T) : Option (List T) × List Nat :=
  let result := uninitBuf T (self.length + array.length)
  let result := writeAt result 0 self
  let result := writeAt result self.length array
  (assumeInit result, [])

/-- Embedding of `concat_back` from the `Copy` impl (lib.rs:195-202):
write `array` at offset 0, write `self` at offset `L`. -/
def concat_back {T : Type} (self array : List T) : Option (List T) × List Nat :=
  let result := uninitBuf T (self.length + array.length)
  let result := writeAt result 0 array
  let result := writeAt result array.length self
  (assumeInit result, [])

/-- Embedding of `append` from the `Copy` impl (lib.rs:204-211): copy
`self` at offset 0, write `e` at offset `N`. -/
def append {T : Type} (self : List T) (e : T) : Option (List T) × List Nat :=
  let result := uninitBuf T (self.length + 1)
  let result := writeAt result 0 self
  let result := writeAt result self.length [e]
  (assumeInit result, [])

/-- Embedding of `append_back` from the `Copy` impl (lib.rs:213-224):
write `e` at offset 0, copy `self` at offset 1. -/
def append_back {T : Type} (self : List T) (e : T) : Option (List T) × List Nat :=
  let result := uninitBuf T (self.length + 1)
  let result := writeAt result 0 [e]
  let result := writeAt result 1 self
  (assumeInit result, [])

end ArrayAddCopy

namespace ArrayRemoveDefault

/-- Embedding of `truncate_start` from `impl<T, const N: usize> const
ArrayRemove` (lib.rs:228-234): read `N - L` elements starting at
element offset `L`, forget `self` (empty drop log). -/
def truncate_start {T : Type} (self : List T) (L : Nat) : List T × List Nat :=
  (readBytes self L (self.length - L), [])

/-- Embedding of `truncate_end` from the default `ArrayRemove` impl
(lib.rs:236-242): read `N - L` elements starting at offset 0, forget
`self`. -/
def truncate_end {T : Type} (self : List T) (L : Nat) : List T × List Nat :=
  (readBytes self 0 (self.length - L), [])

end ArrayRemoveDefault

namespace ArrayRemoveDrop

/-- Embedding of `truncate_start` from `impl<T: Drop, const N: usize>
ArrayRemove` (lib.rs:247-254): `drop_in_place(&raw mut self[..L])` runs
the finalizer of the elements at indices `0, ..., L-1` in order, then
`N - L` elements are read starting at offset `L`, then `self` is
forgotten. -/
def truncate_start {T : Type} (self : List T) (L : Nat) : List T × List Nat :=
  (readBytes self L (self.length - L), List.range L)

/-- Embedding of `truncate_end` from the `T: Drop` `ArrayRemove` impl
(lib.rs:255-262): `drop_in_place(&raw mut self[L..])` runs the
finalizer of the elements at indices `L, L+1, ..., N-1` in order, then
`transmute_copy(&self)` reads the first `N - L` elements, then `self`
is forgotten. -/
def truncate_end {T : Type} (self : List T) (L : Nat) : List T × List Nat :=
  (readBytes self 0 (self.length - L), List.range' L (self.length - L))

end ArrayRemoveDrop

/-- Evaluating `assumeInit` on a fully initialized prefix: the remainder
of the buffer decides the outcome. -/
theorem assumeInit_map_some_append {T : Type} (P : List T) (r : List (Option T)) :
    assumeInit (P.map some ++ r) = (assumeInit r).map (fun ys => P ++ ys) := by
  induction P with
  | nil => simp
  | cons x xs ih =>
    have hstep : assumeInit ((x :: xs).map some ++ r)
        = (assumeInit (xs.map some ++ r)).map (fun ys => x :: ys) := rfl
    rw [hstep, ih, Option.map_map]
    rfl

/-- A buffer all of whose slots were written is initialized. -/
theorem assumeInit_map_some {T : Type} (P : List T) :
    assumeInit (P.map some) = some P := by
  have h := assumeInit_map_some_append P ([] : List (Option T))
  simpa [assumeInit] using h

/-- Writing a `src.length`-element block at offset 0 of a fresh buffer
initializes exactly the first `src.length` slots. -/
theorem writeAt_uninit_zero {T : Type} (k : Nat) (src : List T) :
    writeAt (uninitBuf T k) 0 src = src.map some ++ List.replicate (k - src.length) none := by
  simp [writeAt, uninitBuf, List.drop_replicate]

/-- Writing a second block right after a first one fills the buffer when
the sizes add up. -/
theorem writeAt_after_block {T : Type} (P Q : List T) (r : List (Option T))
    (h : r.length = Q.length) :
    writeAt (P.map some ++ r) P.length Q = P.map some ++ Q.map some := by
  unfold writeAt
  rw [List.take_left' (by simp), List.drop_eq_nil_of_le (by simp [h]), List.append_nil]

/-- The common shape of all four `ArrayAdd` bodies: a fresh buffer of
the result size receives one operand at offset 0 and the other at the
offset right after it, and `assume_init` then yields their
concatenation. -/
theorem assumeInit_two_blocks {T : Type} (P Q : List T) (k : Nat)
    (hk : k = P.length + Q.length) :
    assumeInit (writeAt (writeAt (uninitBuf T k) 0 P) P.length Q) = some (P ++ Q) := by
  subst hk
  rw [writeAt_uninit_zero, Nat.add_sub_cancel_left,
    writeAt_after_block P Q _ (by simp), assumeInit_map_some_append,
    assumeInit_map_some]
  rfl

/-- Contents produced by the default (bulk) `truncate_start`: the suffix
of the input starting at offset `L`. -/
theorem truncate_start_default_content {T : Type} (xs : List T) (L : Nat) :
    (ArrayRemoveDefault.truncate_start xs L).1 = xs.drop L := by
  show (xs.drop L).take (xs.length - L) = xs.drop L
  rw [← List.length_drop, List.take_length]

/-- Contents produced by the element-wise `truncate_start`: the same
suffix (the `drop_in_place` call only touches the discarded prefix). -/
theorem truncate_start_drop_content {T : Type} (xs : List T) (L : Nat) :
    (ArrayRemoveDrop.truncate_start xs L).1 = xs.drop L := by
  show (xs.drop L).take (xs.length - L) = xs.drop L
  rw [← List.length_drop, List.take_length]

/-- Contents produced by the default (bulk) `truncate_end`: the prefix
of length `N - L`. -/
theorem truncate_end_default_content {T : Type} (xs : List T) (L : Nat) :
    (ArrayRemoveDefault.truncate_end xs L).1 = xs.take (xs.length - L) := by
  show (xs.drop 0).take (xs.length - L) = xs.take (xs.length - L)
  rw [List.drop_zero]

/-- Byte contents produced by the element-wise `truncate_end` via
`transmute_copy`: the prefix of length `N - L`. -/
theorem truncate_end_drop_content {T : Type} (xs : List T) (L : Nat) :
    (ArrayRemoveDrop.truncate_end xs L).1 = xs.take (xs.length - L) := by
  show (xs.drop 0).take (xs.length - L) = xs.take (xs.length - L)
  rw [List.drop_zero]

example : (ArrayAddDefault.concat [1, 2, 3, 4] [5, 6, 7]).1 = some [1, 2, 3, 4, 5, 6, 7] := by
  decide

example : (ArrayAddDefault.concat_back [1, 2, 3, 4] [254, 255, 0]).1
    = some [254, 255, 0, 1, 2, 3, 4] := by decide

example : (ArrayAddDefault.append [1, 2, 3, 4] 5).1 = some [1, 2, 3, 4, 5] := by decide

example : (ArrayAddDefault.append_back [1, 2, 3, 4] 0).1 = some [0, 1, 2, 3, 4] := by decide

example : (ArrayRemoveDefault.truncate_start [1, 2, 3, 4] 2).1 = [3, 4] := by decide

example : (ArrayRemoveDrop.truncate_end [1, 2, 3, 4] 2) = ([1, 2], [2, 3]) := by decide

example : (ArrayRemoveDrop.truncate_end [10, 20, 30] 1).2 = [1, 2] := by decide

example : (ArrayRemoveDrop.truncate_end [10, 20, 30] 0).2 = [0, 1, 2] := by decide

example : (ArrayRemoveDrop.truncate_start [10, 20, 30] 1).2 = [0] := by decide

/-- C1: refuted on the code — the element-wise Splitter does not satisfy
the exactly-once finalization law for `truncate_end` (spec:
truncate_back).  On a 3-element array of a finalization-required type,
`truncate_end::<1>` must finalize exactly the one discarded element,
at index 2 (drop log `[2]`); the code instead runs `drop_in_place` over
`self[L..]`, finalizing indices 1 and 2 — `N - L = 2` invocations, one
of them on a retained element — and with `L = 0` it finalizes all three
elements instead of none.  (`truncate_start` does finalize exactly the
discarded prefix, e.g. drop log `[0]` for `L = 1`.) -/
theorem c1_truncate_end_finalizes_wrong_elements :
    (ArrayRemoveDrop.truncate_end [10, 20, 30] 1).2 = [1, 2] ∧
    (ArrayRemoveDrop.truncate_end [10, 20, 30] 1).2 ≠ [2] ∧
    (ArrayRemoveDrop.truncate_end [10, 20, 30] 0).2 = [0, 1, 2] ∧
    (ArrayRemoveDrop.truncate_start [10, 20, 30] 1).2 = [0] := by
  decide

/-- C2: on both the bulk path and the element-wise path, `truncate_end`
(spec: truncate_back) returns exactly the first `N - L` elements of the
input, in their original order (byte-level contents; the finalization
defect of the element-wise path is the subject of C1). -/
theorem c2_truncate_end_contents_law {T : Type} (xs : List T) (L : Nat) :
    (ArrayRemoveDefault.truncate_end xs L).1 = xs.take (xs.length - L) ∧
    (ArrayRemoveDrop.truncate_end xs L).1 = xs.take (xs.length - L) ∧
    ((ArrayRemoveDefault.truncate_end xs L).1).length = xs.length - L ∧
    ∀ i : Nat, i < xs.length - L →
      ((ArrayRemoveDefault.truncate_end xs L).1)[i]? = xs[i]? := by
  refine ⟨truncate_end_default_content xs L, truncate_end_drop_content xs L, ?_, ?_⟩
  · rw [truncate_end_default_content, List.length_take]
    exact Nat.min_eq_left (Nat.sub_le _ _)
  · intro i hi
    rw [truncate_end_default_content, List.getElem?_take, if_pos hi]

/-- Witness for C2 at a concrete input, `[4, 5, 6, 7].truncate_end::<2>`. -/
theorem c2_truncate_end_contents_law_witness :
    ((ArrayRemoveDefault.truncate_end [4, 5, 6, 7] 2).1)[1]? = some 5 :=
  ((c2_truncate_end_contents_law [4, 5, 6, 7] 2).2.2.2 1 (by decide)).trans (by decide)

/-- C3: refuted on the code — the specialization dispatcher is total and
unambiguous (it tests one type-level condition), but the condition is
the bound `T: Drop` (a direct `impl Drop`), not "T requires
finalization".  A type such as `struct Wrapper(Vec<u8>);` carries a
finalization obligation through its field, yet has no direct
`impl Drop`, so the bulk path is selected for it and its discarded
elements are never finalized (leak), contradicting the claim that the
element-wise path is selected whenever T requires finalization. -/
theorem c3_dispatcher_misses_field_only_drop :
    usesElementwisePath u8Type = false ∧
    usesElementwisePath vecU8Type = true ∧
    vecU8WrapperType.needsDrop = true ∧
    usesElementwisePath vecU8WrapperType = false := by
  decide

/-- C4: on both the bulk path and the element-wise path,
`truncate_start` (spec: truncate_front) returns exactly the elements
`L..N` of the input, in their original order. -/
theorem c4_truncate_start_keeps_suffix {T : Type} (xs : List T) (L : Nat) :
    (ArrayRemoveDefault.truncate_start xs L).1 = xs.drop L ∧
    (ArrayRemoveDrop.truncate_start xs L).1 = xs.drop L ∧
    ((ArrayRemoveDefault.truncate_start xs L).1).length = xs.length - L ∧
    ∀ i : Nat, ((ArrayRemoveDefault.truncate_start xs L).1)[i]? = xs[L + i]? := by
  refine ⟨truncate_start_default_content xs L, truncate_start_drop_content xs L, ?_, ?_⟩
  · rw [truncate_start_default_content, List.length_drop]
  · intro i
    rw [truncate_start_default_content, List.getElem?_drop]

/-- C5: `concat` places `self`'s elements at offsets `0..N` and the
other array's elements at offsets `N..N+L`; `append` places `self` at
`0..N` and the new element at offset `N`; neither reorders an
operand. -/
theorem c5_concat_append_layout {T : Type} (A B : List T) (e : T) :
    (ArrayAddDefault.concat A B).1 = some (A ++ B) ∧
    (ArrayAddDefault.append A e).1 = some (A ++ [e]) ∧
    (∀ i : Nat, i < A.length → (A ++ B)[i]? = A[i]?) ∧
    (∀ j : Nat, (A ++ B)[A.length + j]? = B[j]?) ∧
    (A ++ [e])[A.length]? = some e := by
  refine ⟨?_, ?_, ?_, ?_, ?_⟩
  · simpa [ArrayAddDefault.concat] using
      assumeInit_two_blocks A B (A.length + B.length) rfl
  · simpa [ArrayAddDefault.append] using
      assumeInit_two_blocks A [e] (A.length + 1) rfl
  · intro i hi
    rw [List.getElem?_append, if_pos hi]
  · intro j
    rw [List.getElem?_append_right (Nat.le_add_right _ _), Nat.add_sub_cancel_left]
  · rw [List.getElem?_append_right (Nat.le_refl _), Nat.sub_self, List.getElem?_cons_zero]

/-- Witness for C5 at the concrete input of the crate's doc test,
`[1, 2, 3, 4].concat([5, 6, 7])`. -/
theorem c5_concat_append_layout_witness :
    (([1, 2, 3, 4] : List Nat) ++ [5, 6, 7])[2]? = some 3 :=
  ((c5_concat_append_layout [1, 2, 3, 4] [5, 6, 7] 9).2.2.1 2 (by decide)).trans (by decide)

/-- C6: `concat_back` (spec: concat_front) places the other array's
elements at offsets `0..L` and `self`'s elements at offsets `L..L+N`;
`append_back` (spec: append_front) places the new element at offset 0
and `self`'s elements at offsets `1..N+1`; neither reorders an
operand. -/
theorem c6_front_variants_layout {T : Type} (A B : List T) (e : T) :
    (ArrayAddDefault.concat_back A B).1 = some (B ++ A) ∧
    (ArrayAddDefault.append_back A e).1 = some (e :: A) ∧
    (∀ j : Nat, j < B.length → (B ++ A)[j]? = B[j]?) ∧
    (∀ i : Nat, (B ++ A)[B.length + i]? = A[i]?) ∧
    (e :: A)[0]? = some e ∧
    ∀ i : Nat, (e :: A)[i + 1]? = A[i]? := by
  refine ⟨?_, ?_, ?_, ?_, List.getElem?_cons_zero, fun i => List.getElem?_cons_succ⟩
  · simpa [ArrayAddDefault.concat_back] using
      assumeInit_two_blocks B A (A.length + B.length) (Nat.add_comm _ _)
  · simpa [ArrayAddDefault.append_back] using
      assumeInit_two_blocks [e] A (A.length + 1) (Nat.add_comm _ _)
  · intro j hj
    rw [List.getElem?_append, if_pos hj]
  · intro i
    rw [List.getElem?_append_right (Nat.le_add_right _ _), Nat.add_sub_cancel_left]

/-- Witness for C6 at the concrete input of the crate's doc test,
`[1, 2, 3, 4].concat_back([254, 255, 0])`. -/
theorem c6_front_variants_layout_witness :
    (([254, 255, 0] : List Nat) ++ [1, 2, 3, 4])[1]? = some 255 :=
  ((c6_front_variants_layout [1, 2, 3, 4] [254, 255, 0] 9).2.2.1 1 (by decide)).trans
    (by decide)

/-- C7: round-trip law — `concat A B` produces `A ++ B`, and on that
result `truncate_start` with `L = len A` reproduces `B` while
`truncate_end` with `L = len B` reproduces `A`, on both Splitter
paths. -/
theorem c7_round_trip {T : Type} (A B : List T) :
    (ArrayAddDefault.concat A B).1 = some (A ++ B) ∧
    (ArrayRemoveDefault.truncate_start (A ++ B) A.length).1 = B ∧
    (ArrayRemoveDrop.truncate_start (A ++ B) A.length).1 = B ∧
    (ArrayRemoveDefault.truncate_end (A ++ B) B.length).1 = A ∧
    (ArrayRemoveDrop.truncate_end (A ++ B) B.length).1 = A := by
  refine ⟨?_, ?_, ?_, ?_, ?_⟩
  · simpa [ArrayAddDefault.concat] using
      assumeInit_two_blocks A B (A.length + B.length) rfl
  · rw [truncate_start_default_content, List.drop_left]
  · rw [truncate_start_drop_content, List.drop_left]
  · rw [truncate_end_default_content, List.length_append, Nat.add_sub_cancel, List.take_left]
  · rw [truncate_end_drop_content, List.length_append, Nat.add_sub_cancel, List.take_left]

/-- C8: no Composer call runs a finalizer — each of the four `ArrayAdd`
operations has an empty drop log (its body only copies and `forget`s) —
and every element of both operands ends up exactly once in the result,
at its single designated offset. -/
theorem c8_composer_runs_no_finalizer {T : Type} (A B : List T) (e : T) :
    (ArrayAddDefault.concat A B).2 = [] ∧
    (ArrayAddDefault.concat_back A B).2 = [] ∧
    (ArrayAddDefault.append A e).2 = [] ∧
    (ArrayAddDefault.append_back A e).2 = [] ∧
    (ArrayAddDefault.concat A B).1 = some (A ++ B) ∧
    (ArrayAddDefault.concat_back A B).1 = some (B ++ A) ∧
    (ArrayAddDefault.append A e).1 = some (A ++ [e]) ∧
    (ArrayAddDefault.append_back A e).1 = some (e :: A) := by
  refine ⟨rfl, rfl, rfl, rfl, ?_, ?_, ?_, ?_⟩
  · simpa [ArrayAddDefault.concat] using
      assumeInit_two_blocks A B (A.length + B.length) rfl
  · simpa [ArrayAddDefault.concat_back] using
      assumeInit_two_blocks B A (A.length + B.length) (Nat.add_comm _ _)
  · simpa [ArrayAddDefault.append] using
      assumeInit_two_blocks A [e] (A.length + 1) rfl
  · simpa [ArrayAddDefault.append_back] using
      assumeInit_two_blocks [e] A (A.length + 1) (Nat.add_comm _ _)

/-- C9: each operation of the `T: Copy` specialization of `ArrayAdd`
writes the same slots of the same fresh buffer as the corresponding
default (forget-based) operation, so the two implementations return the
same result on every input. -/
theorem c9_copy_impl_equals_default {T : Type} (A B : List T) (e : T) :
    ArrayAddCopy.concat A B = ArrayAddDefault.concat A B ∧
    ArrayAddCopy.concat_back A B = ArrayAddDefault.concat_back A B ∧
    ArrayAddCopy.append A e = ArrayAddDefault.append A e ∧
    ArrayAddCopy.append_back A e = ArrayAddDefault.append_back A e :=
  ⟨rfl, rfl, rfl, rfl⟩

/-- C10: the single-element variants agree with the sequence variants —
`append seq e` coincides with `concat seq [e]`, and `append_back seq e`
coincides with `concat_back seq [e]` (same buffer size, same offsets,
same writes). -/
theorem c10_append_is_singleton_concat {T : Type} (A : List T) (e : T) :
    ArrayAddDefault.append A e = ArrayAddDefault.concat A [e] ∧
    ArrayAddDefault.append_back A e = ArrayAddDefault.concat_back A [e] :=
  ⟨rfl, rfl⟩

end ArrayManipulation
